import Mathlib

/-!
Verification development for a TypeScript documentation extractor and its
Markdown renderer.  The extractor (`generateDocumentation` / `visit` and the
serializers) walks a syntax tree and asks the external type checker for
symbol information; the renderer (`documentationToMarkdown` and friends)
turns the resulting `DocEntry` records into a Markdown string.

Modelling conventions:
* The external type checker is a black box.  Its answers are baked into the
  tree as oracle data: a node that carries a name position stores the result
  of `checker.getSymbolAtLocation` as an `Option Symbol`, and a `Symbol`
  stores the strings the checker would return for its documentation comment,
  its type at its declaring location, and that type's construct signatures.
* JavaScript faults (dereferencing `undefined`, the unchecked
  `symbol.valueDeclaration!` passed into the checker) are modelled with the
  `Except String` monad; nothing in the source catches, so errors propagate.
* `Array.prototype.join` is modelled by `joinWith`, and interpolation of a
  possibly-`undefined` string in a template literal by `templateStr`.
-/

namespace Tsdoc

/-- Display part of a documentation comment (text and kind), as returned by
the checker inside JSDoc tag payloads. -/
structure SymbolDisplayPart where
  text : String
  kind : String

/-- Raw doc-tag record attached to a symbol (tag name plus text spans). -/
structure JSDocTagInfo where
  name : String
  text : Option (List SymbolDisplayPart)

/-- Shape of a call/construct signature on the checker side, parametrised by
the symbol type so that `Symbol` can nest it. -/
structure SignatureOf (σ : Type) where
  parameters : List σ
  returnTypeString : String
  docText : String

/-- Checker-side symbol, carrying the oracle answers the external checker
would give for it: its name, the flattened documentation comment, whether it
has a declaring location (`valueDeclaration`), the string form of its type at
that location, its JSDoc tags, and the construct signatures of that type. -/
inductive Symbol where
  | mk (name : String) (docText : String) (valueDeclaration : Option Unit)
      (typeString : String) (jsDocTags : List JSDocTagInfo)
      (constructSignatures : List (SignatureOf Symbol)) : Symbol

/-- Checker-side construct/call signature. -/
abbrev Signature := SignatureOf Symbol

def Symbol.name : Symbol → String
  | ⟨n, _, _, _, _, _⟩ => n

def Symbol.docText : Symbol → String
  | ⟨_, d, _, _, _, _⟩ => d

def Symbol.valueDeclaration : Symbol → Option Unit
  | ⟨_, _, v, _, _, _⟩ => v

def Symbol.typeString : Symbol → String
  | ⟨_, _, _, t, _, _⟩ => t

def Symbol.jsDocTags : Symbol → List JSDocTagInfo
  | ⟨_, _, _, _, j, _⟩ => j

def Symbol.constructSignatures : Symbol → List Signature
  | ⟨_, _, _, _, _, c⟩ => c

/-- Reduced record produced by `serializeSignature`
(`Pick<DocEntry, 'parameters' | 'returnType' | 'documentation'>`),
parametrised by the entry type so that `DocEntry` can nest it. -/
structure SignatureEntryOf (α : Type) where
  parameters : Option (List α)
  returnType : Option String
  documentation : Option String

/-- The sole data transfer structure of the repository.  All fields but
`name` are optional.  `doc_type` is the discriminant the renderer reads; the
extractor never populates it, so it is `none` on every extracted entry. -/
inductive DocEntry where
  | mk (name : String) (fileName : Option String) (documentation : Option String)
      (type : Option String)
      (constructors : Option (List (SignatureEntryOf DocEntry)))
      (parameters : Option (List DocEntry))
      (methods : Option (List DocEntry))
      (returnType : Option String)
      (jsDocs : Option (List JSDocTagInfo))
      (doc_type : Option String) : DocEntry

/-- Reduced record describing one construct signature of a class. -/
abbrev SignatureEntry := SignatureEntryOf DocEntry

def DocEntry.name : DocEntry → String
  | ⟨n, _, _, _, _, _, _, _, _, _⟩ => n

def DocEntry.fileName : DocEntry → Option String
  | ⟨_, f, _, _, _, _, _, _, _, _⟩ => f

def DocEntry.documentation : DocEntry → Option String
  | ⟨_, _, d, _, _, _, _, _, _, _⟩ => d

def DocEntry.type : DocEntry → Option String
  | ⟨_, _, _, t, _, _, _, _, _, _⟩ => t

def DocEntry.constructors : DocEntry → Option (List SignatureEntry)
  | ⟨_, _, _, _, c, _, _, _, _, _⟩ => c

def DocEntry.parameters : DocEntry → Option (List DocEntry)
  | ⟨_, _, _, _, _, p, _, _, _, _⟩ => p

def DocEntry.methods : DocEntry → Option (List DocEntry)
  | ⟨_, _, _, _, _, _, m, _, _, _⟩ => m

def DocEntry.returnType : DocEntry → Option String
  | ⟨_, _, _, _, _, _, _, r, _, _⟩ => r

def DocEntry.jsDocs : DocEntry → Option (List JSDocTagInfo)
  | ⟨_, _, _, _, _, _, _, _, j, _⟩ => j

def DocEntry.doc_type : DocEntry → Option String
  | ⟨_, _, _, _, _, _, _, _, _, dt⟩ => dt

/-- Functional update of the `constructors` field
(`details.constructors = ...` in `serializeClass`). -/
def DocEntry.setConstructors : DocEntry → Option (List SignatureEntry) → DocEntry
  | ⟨n, f, d, t, _, p, m, r, j, dt⟩, c => ⟨n, f, d, t, c, p, m, r, j, dt⟩

/-- Functional update of the `methods` field (the class entry spread plus the
pushes into `classEntry.methods`). -/
def DocEntry.setMethods : DocEntry → Option (List DocEntry) → DocEntry
  | ⟨n, f, d, t, c, p, _, r, j, dt⟩, m => ⟨n, f, d, t, c, p, m, r, j, dt⟩

/-- Functional update of the `fileName` field
(the `{...entry, fileName}` spread in `generateDocumentation`). -/
def DocEntry.setFileName : DocEntry → Option String → DocEntry
  | ⟨n, _, d, t, c, p, m, r, j, dt⟩, f => ⟨n, f, d, t, c, p, m, r, j, dt⟩

/-- Variable declaration inside a variable statement; the checker may or may
not attach a `symbol` property to it. -/
structure VarDecl where
  symbol : Option Symbol

/-- Syntax-tree node.  Each node carries the combined modifier flags the
checker would report for it, the children `forEachChild` would enumerate,
and, where the source looks a symbol up at a name position, the checker's
answer as oracle data:
* `classDecl`: the outer `Option` is presence of `node.name`, the inner one
  the result of `checker.getSymbolAtLocation(node.name)`;
* `methodDecl` / `functionDecl`: the result of looking up the name position
  (for `functionDecl` the single lookup at `node.name ?? node`);
* `arrowFunction`: the result of looking up
  `(node.parent as VariableDeclaration).name`;
* `other`: any node of a kind the visitor does not match explicitly. -/
inductive Node where
  | classDecl (flags : Nat) (nameRes : Option (Option Symbol)) (children : List Node)
  | moduleDecl (flags : Nat) (children : List Node)
  | methodDecl (flags : Nat) (nameRes : Option Symbol) (children : List Node)
  | functionDecl (flags : Nat) (nameRes : Option Symbol) (children : List Node)
  | variableStatement (flags : Nat) (declarations : List VarDecl) (children : List Node)
  | arrowFunction (flags : Nat) (parentNameRes : Option Symbol) (children : List Node)
  | other (flags : Nat) (children : List Node)

namespace ModifierFlags

/-- Bit for the `export` modifier in the checker's combined modifier flags. -/
def Export : Nat := 1

/-- Bit for the `public` modifier in the checker's combined modifier flags. -/
def Public : Nat := 4

end ModifierFlags

/-- Combined modifier flags of a node, as `getCombinedModifierFlags` reports
them (oracle data carried on the node). -/
def getCombinedModifierFlags : Node → Nat
  | .classDecl f _ _ => f
  | .moduleDecl f _ => f
  | .methodDecl f _ _ => f
  | .functionDecl f _ _ => f
  | .variableStatement f _ _ => f
  | .arrowFunction f _ _ => f
  | .other f _ => f

/-- Children of a node, in the order `forEachChild` enumerates them. -/
def Node.children : Node → List Node
  | .classDecl _ _ c => c
  | .moduleDecl _ c => c
  | .methodDecl _ _ c => c
  | .functionDecl _ _ c => c
  | .variableStatement _ _ c => c
  | .arrowFunction _ _ c => c
  | .other _ c => c

/-- Kind test mirroring `isArrowFunction`. -/
def isArrowFunction : Node → Bool
  | .arrowFunction _ _ _ => true
  | _ => false

/-- Symbol of the variable declaration enclosing an arrow function, i.e. the
checker's answer at `(arrowFunc.parent as VariableDeclaration).name`. -/
def Node.parentNameSymbol : Node → Option Symbol
  | .arrowFunction _ p _ => p
  | _ => none

/-- True if this is visible outside this file, false otherwise:
`(flags & ModifierFlags.Export) !== 0 || (flags & ModifierFlags.Public) !== 0`. -/
def isNodeExportedOrPublic (node : Node) : Bool :=
  let flags := getCombinedModifierFlags node
  decide (flags &&& ModifierFlags.Export ≠ 0) || decide (flags &&& ModifierFlags.Public ≠ 0)

/-- Error message standing for the fault raised when the checker is handed an
absent `symbol.valueDeclaration!` (the source performs no defensive check, so
the fault propagates out of the extraction). -/
def noValueDeclarationError : String :=
  "TypeError: symbol has no value declaration"

/-- Serialize a symbol into a json object: `{name, documentation, type,
jsDocs}`.  The type is computed at `symbol.valueDeclaration!`; an absent
declaring location faults. -/
def serializeSymbol (symbol : Symbol) : Except String DocEntry :=
  match symbol.valueDeclaration with
  | none => Except.error noValueDeclarationError
  | some _ =>
    Except.ok
      ⟨symbol.name, none, some symbol.docText, some symbol.typeString,
        none, none, none, none, some symbol.jsDocTags, none⟩

/-- Serialize a signature (call or construct):
`{parameters, returnType, documentation}`. -/
def serializeSignature (signature : Signature) : Except String SignatureEntry := do
  let params ← signature.parameters.mapM serializeSymbol
  Except.ok ⟨some params, some signature.returnTypeString, some signature.docText⟩

/-- Serialize a class symbol information: the plain symbol serialization plus
the construct signatures of the type at `symbol.valueDeclaration!`. -/
def serializeClass (symbol : Symbol) : Except String DocEntry := do
  let details ← serializeSymbol symbol
  let ctors ← symbol.constructSignatures.mapM serializeSignature
  Except.ok (details.setConstructors (some ctors))

/-- The `addDocEntry` helper of `visit`: an absent symbol is skipped, a
present one is serialized and pushed (here: returned as one-element list). -/
def addDocEntry (symbol : Option Symbol) : Except String (List DocEntry) :=
  match symbol with
  | none => Except.ok []
  | some s => do
    let details ← serializeSymbol s
    Except.ok [details]

/-- Size of the children list is below the size of the node, for termination
of the recursive traversals. -/
theorem sizeOf_children_lt (n : Node) : sizeOf n.children < sizeOf n := by
  cases n <;> simp [Node.children]

mutual

/-- Depth-first search for an arrow function, first match wins, the node
itself included (`findDescendantArrowFunction`). -/
def findDescendantArrowFunction (node : Node) : Option Node :=
  if isArrowFunction node then some node
  else findArrowInChildren node.children
termination_by sizeOf node
decreasing_by exact sizeOf_children_lt node

/-- The `forEachChild(node, findDescendantArrowFunction)` part of the search:
first child for which the search yields a node. -/
def findArrowInChildren : List Node → Option Node
  | [] => none
  | n :: rest =>
    match findDescendantArrowFunction n with
    | some r => some r
    | none => findArrowInChildren rest
termination_by l => sizeOf l
decreasing_by all_goals (simp ; try omega)

end

/-- Catch-all branch of `visit` for nodes of unmatched kinds: search for a
descendant arrow function and, if found, add the symbol of its enclosing
variable declaration's name. -/
def arrowFunctionBranch (node : Node) : Except String (List DocEntry) :=
  match findDescendantArrowFunction node with
  | some arrowFunc => addDocEntry arrowFunc.parentNameSymbol
  | none => Except.ok []

mutual

/-- visit nodes finding exported classes.  The visibility gate is checked
first; then the node kind is dispatched in the source's precedence order.  A
named class whose symbol resolves is serialized as a class record whose
`methods` start empty and receive the results of recursively visiting the
class's direct children; a namespace is transparent; method/function nodes
add their name's symbol; a variable statement reads the symbol of its first
declaration (faulting on an empty declaration list, since `declarations[0]`
is `undefined` there); every other node takes the arrow-function branch. -/
def visit (node : Node) : Except String (List DocEntry) :=
  if !isNodeExportedOrPublic node then Except.ok []
  else
    match node with
    | .classDecl _ (some nameRes) children =>
      match nameRes with
      | some symbol => do
        let classBase ← serializeClass symbol
        let childEntries ← visitList children
        Except.ok [classBase.setMethods (some childEntries)]
      | none => Except.ok []
    | .classDecl f none children => arrowFunctionBranch (.classDecl f none children)
    | .moduleDecl _ children => visitList children
    | .methodDecl _ nameRes _ => addDocEntry nameRes
    | .functionDecl _ nameRes _ => addDocEntry nameRes
    | .variableStatement _ declarations _ =>
      match declarations with
      | [] => Except.error "TypeError: cannot read properties of undefined"
      | d :: _ => addDocEntry d.symbol
    | .arrowFunction f p c => arrowFunctionBranch (.arrowFunction f p c)
    | .other f c => arrowFunctionBranch (.other f c)
termination_by sizeOf node
decreasing_by all_goals (simp ; try omega)

/-- The `forEachChild(node, visitChild)` loop: visit each child in order and
concatenate the collected entries (an error in any child propagates). -/
def visitList : List Node → Except String (List DocEntry)
  | [] => Except.ok []
  | n :: rest => do
    let es ← visit n
    let rs ← visitList rest
    Except.ok (es ++ rs)
termination_by l => sizeOf l
decreasing_by all_goals (simp ; try omega)

end

/-- Source file of the compiled program: its path, whether it is a pure
declaration file, and its top-level children. -/
structure SourceFile where
  fileName : String
  isDeclarationFile : Bool
  children : List Node

/-- Callback of the per-file `forEachChild` loop in `generateDocumentation`:
visit one top-level node and stamp each resulting entry with the file's path
(the `{...entry, fileName: sourceFile.fileName}` spread). -/
def visitAndStamp (fileName : String) (node : Node) : Except String (List DocEntry) := do
  let entries ← visit node
  Except.ok (entries.map (fun entry => entry.setFileName (some fileName)))

/-- Per-file part of `generateDocumentation`: visit every top-level child and
stamp each resulting entry with the file's path. -/
def generateForFile (sourceFile : SourceFile) : Except String (List DocEntry) := do
  let perChild ← sourceFile.children.mapM (visitAndStamp sourceFile.fileName)
  Except.ok perChild.flatten

/-- Extraction entry point: restrict the program's source files to
non-declaration files, then visit every top-level node of every file in
order, collecting the stamped entries.  The program construction itself
(`createProgram`) is the external black box; its output is the file list. -/
def generateDocumentation (sourceFiles : List SourceFile) : Except String (List DocEntry) := do
  let files := sourceFiles.filter (fun f => !f.isDeclarationFile)
  let results ← files.mapM generateForFile
  Except.ok results.flatten

/-- JavaScript `Array.prototype.join(sep)`: empty array gives the empty
string, otherwise the elements separated by `sep`. -/
def joinWith (sep : String) : List String → String
  | [] => ""
  | [x] => x
  | x :: y :: rest => x ++ sep ++ joinWith sep (y :: rest)

/-- JavaScript template-literal interpolation of a possibly-`undefined`
string value: `undefined` renders as the literal text "undefined". -/
def templateStr : Option String → String
  | some s => s
  | none => "undefined"

/-- Parameter cell of a rendered row: name and flattened documentation. -/
structure RowParam where
  name : String
  documentation : String

/-- Row computed by `toMarkdown` from an entry: name, type and documentation
defaulted to the empty string, plus the parameter cells. -/
structure Row where
  name : String
  type : String
  documentation : String
  params : List RowParam

/-- The per-entry row construction inside `toMarkdown`: default `type` and
`documentation` to `''` and project each parameter to name/documentation. -/
def rowOf (entry : DocEntry) : Row :=
  { name := entry.name
    type := entry.type.getD ""
    documentation := entry.documentation.getD ""
    params := (entry.parameters.getD []).map (fun p =>
      { name := p.name, documentation := p.documentation.getD "" }) }

/-- The `rowToMarkdown` helper of `toMarkdown`: a `##` heading, the
documentation when non-empty, the two-column name/type table, and, when the
row has parameters, the bulleted parameter list; joined with newlines. -/
def rowToMarkdown (row : Row) : String :=
  let markdown : List String := ["## " ++ row.name ++ "\n"]
  let markdown := markdown ++
    (if row.documentation.length ≠ 0 then [row.documentation ++ "\n"] else [])
  let markdown := markdown ++
    ["| Name | Type |", "| ---------- | ---------- |",
      "| `" ++ row.name ++ "` | `" ++ row.type ++ "` |\n"]
  let markdown := markdown ++
    (if row.params.length ≠ 0 then
      "Parameters:" ::
        row.params.map (fun p => "* `" ++ p.name ++ "`: " ++ p.documentation)
    else [])
  joinWith "\n" markdown

/-- Group renderer: one `rowToMarkdown` block per entry, joined with
newlines. -/
def toMarkdown (entries : List DocEntry) : String :=
  joinWith "\n" ((entries.map rowOf).map rowToMarkdown)

/-- Class renderer: a `#` heading with the class name, the documentation
(interpolated, so an absent one renders as "undefined"), and the group
renderer applied to `methods ?? []`; joined with newlines. -/
def classesToMarkdown (entry : DocEntry) : String :=
  joinWith "\n"
    ["# " ++ entry.name ++ "\n", templateStr entry.documentation ++ "\n",
      toMarkdown (entry.methods.getD []) ++ "\n"]

/-- Top-level renderer: filter the entries into function, class and const
groups by `doc_type`; emit a "# Functions" section when the function group is
non-empty, then a "# Constants" section when the const group is non-empty,
then the class sections; joined with newlines. -/
def documentationToMarkdown (entries : List DocEntry) : String :=
  let functions := entries.filter (fun e => e.doc_type == some "function")
  let classes := entries.filter (fun e => e.doc_type == some "class")
  let consts := entries.filter (fun e => e.doc_type == some "const")
  let markdown : List String :=
    (if functions.length ≠ 0 then ["# Functions\n", toMarkdown functions ++ "\n"] else []) ++
    (if consts.length ≠ 0 then ["# Constants\n", toMarkdown consts ++ "\n"] else []) ++
    [joinWith "\n" (classes.map (fun entry => classesToMarkdown entry))]
  joinWith "\n" markdown

/-- Modelled from the spec: subsection for one entry of a function/constant
group, written from the claim's words for the refinement comparison — a
`##` heading with the name, the documentation paragraph only when non-empty,
a two-column name/type table whose single data row holds the backticked name
and backticked type (empty string when the type is absent), and a bulleted
parameter list (one line per parameter) only when the parameter list is
non-empty; the lines are joined with newlines. -/
def rowMarkdownSpec (e : DocEntry) : String :=
  let doc := e.documentation.getD ""
  let prms := e.parameters.getD []
  joinWith "\n"
    (["## " ++ e.name ++ "\n"] ++
      (if doc = "" then [] else [doc ++ "\n"]) ++
      ["| Name | Type |", "| ---------- | ---------- |",
        "| `" ++ e.name ++ "` | `" ++ e.type.getD "" ++ "` |\n"] ++
      (if prms.isEmpty then [] else
        "Parameters:" ::
          prms.map (fun p => "* `" ++ p.name ++ "`: " ++ p.documentation.getD "")))

/-- Checker oracle for the symbol of `export function add(a: number, b:
number): number { return a + b; }`: no doc comment, resolved type string as
the checker prints it, no JSDoc tags, a declaring location present. -/
def addSymbol : Symbol :=
  ⟨"add", "", some (), "(a: number, b: number) => number", [], []⟩

/-- Top-level node of the `add` input file: an exported function declaration
whose name resolves to `addSymbol`. -/
def addNode : Node := .functionDecl ModifierFlags.Export (some addSymbol) []

/-- The `add` input file as a compiled source file. -/
def addFile : SourceFile := ⟨"main.ts", false, [addNode]⟩

/-- The one record extraction produces for the `add` file. -/
def addExtracted : DocEntry :=
  ⟨"add", some "main.ts", some "", some "(a: number, b: number) => number",
    none, none, none, none, some [], none⟩

/-- Symbol the checker resolves but for which no declaring location exists
(`symbol.valueDeclaration` is absent). -/
def noDeclSymbol : Symbol := ⟨"broken", "", none, "any", [], []⟩

/-! Branch equations for the visitor, so later proofs never have to touch the
well-founded recursion machinery again. -/

theorem visit_not_exported (n : Node) (h : isNodeExportedOrPublic n = false) :
    visit n = Except.ok [] := by
  rw [visit.eq_def]
  simp [h]

theorem visitList_nil : visitList [] = Except.ok [] := by rw [visitList.eq_def]

theorem visitList_cons (n : Node) (rest : List Node) :
    visitList (n :: rest) =
      Except.bind (visit n) (fun es =>
        Except.bind (visitList rest) (fun rs => Except.ok (es ++ rs))) := by
  rw [visitList.eq_def]
  rfl

theorem visit_classDecl_some (f : Nat) (s : Symbol) (c : List Node)
    (h : isNodeExportedOrPublic (.classDecl f (some (some s)) c) = true) :
    visit (.classDecl f (some (some s)) c) =
      Except.bind (serializeClass s) (fun classBase =>
        Except.bind (visitList c) (fun childEntries =>
          Except.ok [classBase.setMethods (some childEntries)])) := by
  rw [visit.eq_def]
  simp [h]
  rfl

theorem visit_classDecl_nosym (f : Nat) (c : List Node)
    (h : isNodeExportedOrPublic (.classDecl f (some none) c) = true) :
    visit (.classDecl f (some none) c) = Except.ok [] := by
  rw [visit.eq_def]
  simp [h]

theorem visit_classDecl_noname (f : Nat) (c : List Node)
    (h : isNodeExportedOrPublic (.classDecl f none c) = true) :
    visit (.classDecl f none c) = arrowFunctionBranch (.classDecl f none c) := by
  rw [visit.eq_def]
  simp [h]

theorem visit_moduleDecl (f : Nat) (c : List Node)
    (h : isNodeExportedOrPublic (.moduleDecl f c) = true) :
    visit (.moduleDecl f c) = visitList c := by
  rw [visit.eq_def]
  simp [h]

theorem visit_methodDecl (f : Nat) (r : Option Symbol) (c : List Node)
    (h : isNodeExportedOrPublic (.methodDecl f r c) = true) :
    visit (.methodDecl f r c) = addDocEntry r := by
  rw [visit.eq_def]
  simp [h]

theorem visit_functionDecl (f : Nat) (r : Option Symbol) (c : List Node)
    (h : isNodeExportedOrPublic (.functionDecl f r c) = true) :
    visit (.functionDecl f r c) = addDocEntry r := by
  rw [visit.eq_def]
  simp [h]

theorem visit_variableStatement_cons (f : Nat) (d : VarDecl) (rest : List VarDecl)
    (c : List Node)
    (h : isNodeExportedOrPublic (.variableStatement f (d :: rest) c) = true) :
    visit (.variableStatement f (d :: rest) c) = addDocEntry d.symbol := by
  rw [visit.eq_def]
  simp [h]

theorem visit_variableStatement_nil (f : Nat) (c : List Node)
    (h : isNodeExportedOrPublic (.variableStatement f [] c) = true) :
    visit (.variableStatement f [] c) =
      Except.error "TypeError: cannot read properties of undefined" := by
  rw [visit.eq_def]
  simp [h]

theorem visit_arrowFunction (f : Nat) (p : Option Symbol) (c : List Node)
    (h : isNodeExportedOrPublic (.arrowFunction f p c) = true) :
    visit (.arrowFunction f p c) = arrowFunctionBranch (.arrowFunction f p c) := by
  rw [visit.eq_def]
  simp [h]

theorem visit_other (f : Nat) (c : List Node)
    (h : isNodeExportedOrPublic (.other f c) = true) :
    visit (.other f c) = arrowFunctionBranch (.other f c) := by
  rw [visit.eq_def]
  simp [h]

/-! Helper lemmas on the monad, the serializers, and the record updates. -/

@[simp]
theorem except_bind_ok {ε α β : Type} (a : α) (g : α → Except ε β) :
    Except.bind (Except.ok a) g = g a := rfl

@[simp]
theorem except_bind_error {ε α β : Type} (e : ε) (g : α → Except ε β) :
    Except.bind (Except.error e) g = (Except.error e : Except ε β) := rfl

@[simp]
theorem except_bind_ok_m {ε α β : Type} (a : α) (g : α → Except ε β) :
    (Except.ok a >>= g) = g a := rfl

@[simp]
theorem except_bind_error_m {ε α β : Type} (e : ε) (g : α → Except ε β) :
    (Except.error e >>= g) = (Except.error e : Except ε β) := rfl

@[simp]
theorem except_pure {ε α : Type} (a : α) :
    (pure a : Except ε α) = Except.ok a := rfl

theorem string_length_eq_zero_iff (s : String) : s.length = 0 ↔ s = "" := by
  constructor
  · intro h
    cases s with
    | mk data =>
      cases data with
      | nil => rfl
      | cons a l => simp [String.length] at h
  · intro h
    subst h
    rfl

@[simp]
theorem setMethods_name (d : DocEntry) (m : Option (List DocEntry)) :
    (d.setMethods m).name = d.name := by cases d ; rfl

@[simp]
theorem setMethods_methods (d : DocEntry) (m : Option (List DocEntry)) :
    (d.setMethods m).methods = m := by cases d ; rfl

@[simp]
theorem setMethods_doc_type (d : DocEntry) (m : Option (List DocEntry)) :
    (d.setMethods m).doc_type = d.doc_type := by cases d ; rfl

@[simp]
theorem setMethods_parameters (d : DocEntry) (m : Option (List DocEntry)) :
    (d.setMethods m).parameters = d.parameters := by cases d ; rfl

@[simp]
theorem setMethods_returnType (d : DocEntry) (m : Option (List DocEntry)) :
    (d.setMethods m).returnType = d.returnType := by cases d ; rfl

@[simp]
theorem setMethods_documentation (d : DocEntry) (m : Option (List DocEntry)) :
    (d.setMethods m).documentation = d.documentation := by cases d ; rfl

@[simp]
theorem setConstructors_name (d : DocEntry) (c : Option (List SignatureEntry)) :
    (d.setConstructors c).name = d.name := by cases d ; rfl

@[simp]
theorem setConstructors_doc_type (d : DocEntry) (c : Option (List SignatureEntry)) :
    (d.setConstructors c).doc_type = d.doc_type := by cases d ; rfl

@[simp]
theorem setConstructors_parameters (d : DocEntry) (c : Option (List SignatureEntry)) :
    (d.setConstructors c).parameters = d.parameters := by cases d ; rfl

@[simp]
theorem setConstructors_returnType (d : DocEntry) (c : Option (List SignatureEntry)) :
    (d.setConstructors c).returnType = d.returnType := by cases d ; rfl

@[simp]
theorem setConstructors_methods (d : DocEntry) (c : Option (List SignatureEntry)) :
    (d.setConstructors c).methods = d.methods := by cases d ; rfl

@[simp]
theorem setConstructors_documentation (d : DocEntry) (c : Option (List SignatureEntry)) :
    (d.setConstructors c).documentation = d.documentation := by cases d ; rfl

@[simp]
theorem setConstructors_constructors (d : DocEntry) (c : Option (List SignatureEntry)) :
    (d.setConstructors c).constructors = c := by cases d ; rfl

@[simp]
theorem setFileName_name (d : DocEntry) (f : Option String) :
    (d.setFileName f).name = d.name := by cases d ; rfl

@[simp]
theorem setFileName_fileName (d : DocEntry) (f : Option String) :
    (d.setFileName f).fileName = f := by cases d ; rfl

@[simp]
theorem setFileName_doc_type (d : DocEntry) (f : Option String) :
    (d.setFileName f).doc_type = d.doc_type := by cases d ; rfl

@[simp]
theorem setFileName_parameters (d : DocEntry) (f : Option String) :
    (d.setFileName f).parameters = d.parameters := by cases d ; rfl

@[simp]
theorem setFileName_returnType (d : DocEntry) (f : Option String) :
    (d.setFileName f).returnType = d.returnType := by cases d ; rfl

@[simp]
theorem setFileName_methods (d : DocEntry) (f : Option String) :
    (d.setFileName f).methods = d.methods := by cases d ; rfl

theorem serializeSymbol_of_valueDeclaration (s : Symbol) (u : Unit)
    (h : s.valueDeclaration = some u) :
    serializeSymbol s = Except.ok
      ⟨s.name, none, some s.docText, some s.typeString, none, none, none, none,
        some s.jsDocTags, none⟩ := by
  simp [serializeSymbol, h]

theorem serializeSymbol_of_no_valueDeclaration (s : Symbol)
    (h : s.valueDeclaration = none) :
    serializeSymbol s = Except.error noValueDeclarationError := by
  simp [serializeSymbol, h]

theorem serializeSymbol_ok_fields (s : Symbol) (d : DocEntry)
    (h : serializeSymbol s = Except.ok d) :
    d.name = s.name ∧ d.documentation = some s.docText ∧ d.type = some s.typeString ∧
      d.parameters = none ∧ d.returnType = none ∧ d.methods = none ∧
      d.constructors = none ∧ d.jsDocs = some s.jsDocTags ∧ d.doc_type = none ∧
      d.fileName = none := by
  cases hv : s.valueDeclaration with
  | none => simp [serializeSymbol, hv] at h
  | some u =>
    rw [serializeSymbol_of_valueDeclaration s u hv] at h
    cases h
    simp [DocEntry.name, DocEntry.documentation, DocEntry.type, DocEntry.parameters,
      DocEntry.returnType, DocEntry.methods, DocEntry.constructors, DocEntry.jsDocs,
      DocEntry.doc_type, DocEntry.fileName]

theorem serializeClass_ok_form (s : Symbol) (d : DocEntry)
    (h : serializeClass s = Except.ok d) :
    ∃ details ctors, serializeSymbol s = Except.ok details ∧
      s.constructSignatures.mapM serializeSignature = Except.ok ctors ∧
      d = details.setConstructors (some ctors) := by
  unfold serializeClass at h
  cases hs : serializeSymbol s with
  | error e =>
    rw [hs] at h
    simp only [except_bind_error_m] at h
    simp at h
  | ok details =>
    rw [hs] at h
    simp only [except_bind_ok_m] at h
    cases hc : s.constructSignatures.mapM serializeSignature with
    | error e =>
      rw [hc] at h
      simp only [except_bind_error_m] at h
      simp at h
    | ok ctors =>
      rw [hc] at h
      simp only [except_bind_ok_m, Except.ok.injEq] at h
      exact ⟨details, ctors, rfl, rfl, h.symm⟩

theorem serializeClass_of_no_valueDeclaration (s : Symbol)
    (h : s.valueDeclaration = none) :
    serializeClass s = Except.error noValueDeclarationError := by
  unfold serializeClass
  rw [serializeSymbol_of_no_valueDeclaration s h]
  rfl

theorem visitList_all_not_exported (l : List Node)
    (h : ∀ n ∈ l, isNodeExportedOrPublic n = false) :
    visitList l = Except.ok [] := by
  induction l with
  | nil => exact visitList_nil
  | cons n rest ih =>
    rw [visitList_cons, visit_not_exported n (h n (List.mem_cons_self n rest))]
    rw [ih (fun m hm => h m (List.mem_cons_of_mem n hm))]
    rfl

theorem mapM_ok_forall {α β : Type} (f : α → Except String β) (l : List α)
    (r : List β) (h : l.mapM f = Except.ok r) :
    ∀ x ∈ l, ∃ y, f x = Except.ok y := by
  induction l generalizing r with
  | nil => intro x hx ; cases hx
  | cons a rest ih =>
    rw [List.mapM_cons] at h
    cases ha : f a with
    | error e =>
      rw [ha] at h
      simp only [except_bind_error_m] at h
      simp at h
    | ok y =>
      rw [ha] at h
      simp only [except_bind_ok_m] at h
      cases hrest : rest.mapM f with
      | error e =>
        rw [hrest] at h
        simp only [except_bind_error_m] at h
        simp at h
      | ok ys =>
        intro x hx
        cases hx with
        | head => exact ⟨y, ha⟩
        | tail _ hmem => exact ih ys hrest x hmem

/-! Invariants used by the claims about `doc_type` and group rendering. -/

theorem filter_doc_type_disjoint (entries : List DocEntry) (a b : String) (hab : a ≠ b) :
    (entries.filter (fun e => e.doc_type == some a)).filter
      (fun e => e.doc_type == some b) = [] := by
  rw [List.filter_filter]
  apply List.filter_eq_nil_iff.mpr
  intro e he
  cases hdt : e.doc_type with
  | none => simp [hdt]
  | some s =>
    simp [hdt]
    intro h1 h2
    exact absurd (h1.symm.trans h2) (Ne.symm hab)

theorem addDocEntry_none_eq : addDocEntry none = Except.ok [] := rfl

theorem addDocEntry_some_eq (s : Symbol) :
    addDocEntry (some s) =
      Except.bind (serializeSymbol s) (fun d => Except.ok [d]) := rfl

theorem addDocEntry_ok_doc_type (r : Option Symbol) (es : List DocEntry)
    (h : addDocEntry r = Except.ok es) : ∀ e ∈ es, e.doc_type = none := by
  cases r with
  | none =>
    rw [addDocEntry_none_eq] at h
    simp at h
    subst h
    intro e he
    cases he
  | some s =>
    rw [addDocEntry_some_eq] at h
    cases hs : serializeSymbol s with
    | error m => rw [hs] at h ; simp at h
    | ok d =>
      rw [hs] at h
      simp at h
      subst h
      intro e he
      cases he with
      | head => exact (serializeSymbol_ok_fields s d hs).2.2.2.2.2.2.2.2.1
      | tail _ hm => cases hm

theorem arrowFunctionBranch_ok_doc_type (n : Node) (es : List DocEntry)
    (h : arrowFunctionBranch n = Except.ok es) : ∀ e ∈ es, e.doc_type = none := by
  unfold arrowFunctionBranch at h
  cases hf : findDescendantArrowFunction n with
  | none => rw [hf] at h ; simp at h ; subst h ; intro e he ; cases he
  | some af => rw [hf] at h ; exact addDocEntry_ok_doc_type _ es h

theorem visit_ok_doc_type_aux : ∀ (k : Nat),
    (∀ (n : Node) (es : List DocEntry), sizeOf n ≤ k → visit n = Except.ok es →
      ∀ e ∈ es, e.doc_type = none) ∧
    (∀ (l : List Node) (es : List DocEntry), sizeOf l ≤ k → visitList l = Except.ok es →
      ∀ e ∈ es, e.doc_type = none) := by
  intro k
  induction k using Nat.strong_induction_on with
  | _ k ih =>
    constructor
    · intro n es hk h
      cases hExp : isNodeExportedOrPublic n with
      | false =>
        rw [visit_not_exported n hExp] at h
        simp at h
        subst h
        intro e he
        cases he
      | true =>
        cases n with
        | classDecl f nameRes c =>
          cases nameRes with
          | none =>
            rw [visit_classDecl_noname f c hExp] at h
            exact arrowFunctionBranch_ok_doc_type _ es h
          | some r =>
            cases r with
            | none =>
              rw [visit_classDecl_nosym f c hExp] at h
              simp at h
              subst h
              intro e he
              cases he
            | some s =>
              rw [visit_classDecl_some f s c hExp] at h
              cases hs : serializeClass s with
              | error m => rw [hs] at h ; simp at h
              | ok base =>
                rw [hs] at h
                simp only [except_bind_ok] at h
                cases hl : visitList c with
                | error m => rw [hl] at h ; simp at h
                | ok ms =>
                  rw [hl] at h
                  simp only [except_bind_ok, Except.ok.injEq] at h
                  subst h
                  intro e he
                  cases he with
                  | head =>
                    obtain ⟨details, ctors, hds, hcs, hbase⟩ := serializeClass_ok_form s base hs
                    rw [setMethods_doc_type, hbase, setConstructors_doc_type]
                    exact (serializeSymbol_ok_fields s details hds).2.2.2.2.2.2.2.2.1
                  | tail _ hm => cases hm
        | moduleDecl f c =>
          rw [visit_moduleDecl f c hExp] at h
          have hcs : sizeOf c < sizeOf (Node.moduleDecl f c) := by simp
          exact (ih (sizeOf c) (Nat.lt_of_lt_of_le hcs hk)).2 c es (Nat.le_refl _) h
        | methodDecl f r c =>
          rw [visit_methodDecl f r c hExp] at h
          exact addDocEntry_ok_doc_type r es h
        | functionDecl f r c =>
          rw [visit_functionDecl f r c hExp] at h
          exact addDocEntry_ok_doc_type r es h
        | variableStatement f decls c =>
          cases decls with
          | nil => rw [visit_variableStatement_nil f c hExp] at h ; simp at h
          | cons d rest =>
            rw [visit_variableStatement_cons f d rest c hExp] at h
            exact addDocEntry_ok_doc_type _ es h
        | arrowFunction f p c =>
          rw [visit_arrowFunction f p c hExp] at h
          exact arrowFunctionBranch_ok_doc_type _ es h
        | other f c =>
          rw [visit_other f c hExp] at h
          exact arrowFunctionBranch_ok_doc_type _ es h
    · intro l es hk h
      cases l with
      | nil =>
        rw [visitList_nil] at h
        simp at h
        subst h
        intro e he
        cases he
      | cons n rest =>
        rw [visitList_cons] at h
        cases hn : visit n with
        | error m => rw [hn] at h ; simp at h
        | ok ens =>
          rw [hn] at h
          simp only [except_bind_ok] at h
          cases hr : visitList rest with
          | error m => rw [hr] at h ; simp at h
          | ok rns =>
            rw [hr] at h
            simp only [except_bind_ok, Except.ok.injEq] at h
            subst h
            intro e he
            have hn1 : sizeOf n < sizeOf (n :: rest) := by simp ; try omega
            have hr1 : sizeOf rest < sizeOf (n :: rest) := by simp ; try omega
            rcases List.mem_append.mp he with hmem | hmem
            · exact (ih (sizeOf n) (Nat.lt_of_lt_of_le hn1 hk)).1 n ens (Nat.le_refl _) hn e hmem
            · exact (ih (sizeOf rest) (Nat.lt_of_lt_of_le hr1 hk)).2 rest rns (Nat.le_refl _) hr e hmem

theorem visit_ok_doc_type (n : Node) (es : List DocEntry) (h : visit n = Except.ok es) :
    ∀ e ∈ es, e.doc_type = none :=
  (visit_ok_doc_type_aux (sizeOf n)).1 n es (Nat.le_refl _) h

theorem mapM_ok_mem_exists {α β : Type} (f : α → Except String β) (l : List α)
    (r : List β) (h : l.mapM f = Except.ok r) :
    ∀ y ∈ r, ∃ x ∈ l, f x = Except.ok y := by
  induction l generalizing r with
  | nil =>
    rw [List.mapM_nil] at h
    simp at h
    subst h
    intro y hy
    cases hy
  | cons a rest ih =>
    rw [List.mapM_cons] at h
    cases ha : f a with
    | error e => rw [ha] at h ; simp only [except_bind_error_m] at h ; simp at h
    | ok b =>
      rw [ha] at h
      simp only [except_bind_ok_m] at h
      cases hrest : rest.mapM f with
      | error e => rw [hrest] at h ; simp only [except_bind_error_m] at h ; simp at h
      | ok bs =>
        rw [hrest] at h
        simp only [except_bind_ok_m, except_pure, Except.ok.injEq] at h
        subst h
        intro y hy
        cases hy with
        | head => exact ⟨a, List.mem_cons_self a rest, ha⟩
        | tail _ hm =>
          obtain ⟨x, hx, hfx⟩ := ih bs hrest y hm
          exact ⟨x, List.mem_cons_of_mem a hx, hfx⟩

theorem generateForFile_ok_doc_type (sf : SourceFile) (es : List DocEntry)
    (h : generateForFile sf = Except.ok es) : ∀ e ∈ es, e.doc_type = none := by
  unfold generateForFile at h
  cases hm : sf.children.mapM (visitAndStamp sf.fileName) with
  | error m => rw [hm] at h ; simp at h
  | ok perChild =>
    rw [hm] at h
    simp only [except_bind_ok_m, Except.ok.injEq] at h
    subst h
    intro e he
    obtain ⟨chunk, hchunk, hec⟩ := List.mem_flatten.mp he
    obtain ⟨node, hnode, hf⟩ := mapM_ok_mem_exists _ _ _ hm chunk hchunk
    unfold visitAndStamp at hf
    cases hv : visit node with
    | error m => rw [hv] at hf ; simp at hf
    | ok ves =>
      rw [hv] at hf
      simp only [except_bind_ok_m, Except.ok.injEq] at hf
      subst hf
      obtain ⟨v, hvmem, hve⟩ := List.mem_map.mp hec
      subst hve
      rw [setFileName_doc_type]
      exact visit_ok_doc_type node ves hv v hvmem

theorem generateDocumentation_ok_doc_type (files : List SourceFile)
    (res : List DocEntry) (h : generateDocumentation files = Except.ok res) :
    ∀ e ∈ res, e.doc_type = none := by
  unfold generateDocumentation at h
  simp only [] at h
  cases hm : (files.filter (fun f => !f.isDeclarationFile)).mapM generateForFile with
  | error m => rw [hm] at h ; simp at h
  | ok results =>
    rw [hm] at h
    simp only [except_bind_ok_m, Except.ok.injEq] at h
    subst h
    intro e he
    obtain ⟨chunk, hchunk, hec⟩ := List.mem_flatten.mp he
    obtain ⟨sf, hsf, hff⟩ := mapM_ok_mem_exists _ _ _ hm chunk hchunk
    exact generateForFile_ok_doc_type sf chunk hff e hec

theorem rowToMarkdown_rowOf (e : DocEntry) :
    rowToMarkdown (rowOf e) = rowMarkdownSpec e := by
  unfold rowToMarkdown rowOf rowMarkdownSpec
  by_cases hdoc : e.documentation.getD "" = ""
  · have hlen : (e.documentation.getD "").length = 0 :=
      (string_length_eq_zero_iff _).mpr hdoc
    cases hps : e.parameters.getD [] with
    | nil => simp [hdoc, hlen, hps]
    | cons p rest => simp [hdoc, hlen, hps, Function.comp_def]
  · have hlen : (e.documentation.getD "").length ≠ 0 := by
      intro h0
      exact hdoc ((string_length_eq_zero_iff _).mp h0)
    cases hps : e.parameters.getD [] with
    | nil => simp [hdoc, hlen, hps]
    | cons p rest => simp [hdoc, hlen, hps, Function.comp_def]

theorem toMarkdown_spec (entries : List DocEntry) :
    toMarkdown entries = joinWith "\n" (entries.map rowMarkdownSpec) := by
  unfold toMarkdown
  rw [List.map_map]
  congr 1
  apply List.map_congr_left
  intro e he
  exact rowToMarkdown_rowOf e

/-- C10 helper: an entry list in which every `doc_type` is `none` renders to
the empty string. -/
theorem doc_type_none_renders_empty (entries : List DocEntry)
    (h : ∀ e ∈ entries, e.doc_type = none) :
    documentationToMarkdown entries = "" := by
  have hF : entries.filter (fun e => e.doc_type == some "function") = [] := by
    apply List.filter_eq_nil_iff.mpr
    intro e he
    simp [h e he]
  have hK : entries.filter (fun e => e.doc_type == some "class") = [] := by
    apply List.filter_eq_nil_iff.mpr
    intro e he
    simp [h e he]
  have hC : entries.filter (fun e => e.doc_type == some "const") = [] := by
    apply List.filter_eq_nil_iff.mpr
    intro e he
    simp [h e he]
  unfold documentationToMarkdown
  simp only [hF, hK, hC]
  simp [joinWith]

theorem visit_addNode : visit addNode = Except.ok
    [⟨"add", none, some "", some "(a: number, b: number) => number",
      none, none, none, none, some [], none⟩] := by
  show visit (.functionDecl ModifierFlags.Export (some addSymbol) []) = _
  rw [visit_functionDecl ModifierFlags.Export (some addSymbol) [] (by rfl)]
  rfl

theorem generateDocumentation_addFile :
    generateDocumentation [addFile] = Except.ok [addExtracted] := by
  unfold generateDocumentation
  simp only []
  rw [show ([addFile].filter (fun f => !f.isDeclarationFile)) = [addFile] from rfl]
  rw [List.mapM_cons, List.mapM_nil]
  rw [show generateForFile addFile =
    (do
      let perChild ← [addNode].mapM (visitAndStamp "main.ts")
      Except.ok perChild.flatten) from rfl]
  rw [List.mapM_cons, List.mapM_nil]
  rw [show visitAndStamp "main.ts" addNode =
    (do
      let entries ← visit addNode
      Except.ok (entries.map (fun entry => entry.setFileName (some "main.ts")))) from rfl]
  rw [visit_addNode]
  rfl

/-- C1: for every entry sequence, `documentationToMarkdown` partitions the
entries into three disjoint groups by `doc_type` being "function", "class" or
"const", and emits, in order, a "# Functions" section iff the function group
is non-empty, then a "# Constants" section iff the const group is non-empty,
then one class section per entry of the class group. -/
theorem documentationToMarkdown_section_structure (entries : List DocEntry) :
    (documentationToMarkdown entries =
      (let functions := entries.filter (fun e => e.doc_type == some "function")
       let classes := entries.filter (fun e => e.doc_type == some "class")
       let consts := entries.filter (fun e => e.doc_type == some "const")
       (if functions.isEmpty then "" else
         "# Functions\n" ++ "\n" ++ toMarkdown functions ++ "\n" ++ "\n") ++
       (if consts.isEmpty then "" else
         "# Constants\n" ++ "\n" ++ toMarkdown consts ++ "\n" ++ "\n") ++
       joinWith "\n" (classes.map classesToMarkdown))) ∧
    (entries.filter (fun e => e.doc_type == some "function")).filter
      (fun e => e.doc_type == some "class") = [] ∧
    (entries.filter (fun e => e.doc_type == some "function")).filter
      (fun e => e.doc_type == some "const") = [] ∧
    (entries.filter (fun e => e.doc_type == some "class")).filter
      (fun e => e.doc_type == some "const") = [] := by
  refine ⟨?_, filter_doc_type_disjoint entries "function" "class" (by decide),
    filter_doc_type_disjoint entries "function" "const" (by decide),
    filter_doc_type_disjoint entries "class" "const" (by decide)⟩
  unfold documentationToMarkdown
  simp only []
  cases hf : entries.filter (fun e => e.doc_type == some "function") with
  | nil =>
    cases hc : entries.filter (fun e => e.doc_type == some "const") with
    | nil => simp [hf, hc, joinWith, String.empty_append]
    | cons c cs => simp [hf, hc, joinWith, String.empty_append, String.append_assoc]
  | cons f fs =>
    cases hc : entries.filter (fun e => e.doc_type == some "const") with
    | nil =>
      simp [hf, hc, joinWith, String.empty_append, String.append_assoc,
        String.append_empty]
    | cons c cs =>
      simp [hf, hc, joinWith, String.empty_append, String.append_assoc,
        String.append_empty]

/-- C2 counterexample: for the input file `export function add(a: number, b:
number): number { return a + b; }`, extraction yields exactly one DocEntry
named "add" with the resolved type string, but its `parameters` field is
absent (not a two-entry sequence) and its `returnType` field is absent (not
"number"): `serializeSymbol` only populates name, documentation, type and
jsDocs. -/
theorem add_extraction_counterexample :
    generateDocumentation [addFile] = Except.ok [addExtracted] ∧
    addExtracted.parameters = none ∧
    addExtracted.returnType = none ∧
    ¬addExtracted.returnType = some "number" :=
  ⟨generateDocumentation_addFile, rfl, rfl, by decide⟩

/-- C2 (amended): for the `add` input file, extraction yields exactly one
DocEntry whose name is "add" and whose type is the string form of the
function's resolved type, with the symbol's documentation and JSDoc tags and
the stamped file name, and with no `parameters` and no `returnType` fields
(the extractor's symbol serialization never populates them). -/
theorem add_extraction_amended :
    generateDocumentation [addFile] = Except.ok [addExtracted] ∧
    addExtracted.name = "add" ∧
    addExtracted.type = some "(a: number, b: number) => number" ∧
    addExtracted.fileName = some "main.ts" ∧
    addExtracted.parameters = none ∧
    addExtracted.returnType = none :=
  ⟨generateDocumentation_addFile, rfl, rfl, rfl, rfl, rfl⟩

/-- C9: every entry of a function/constant group is rendered as a subsection
made of a `##` name heading, the documentation paragraph iff the entry's
documentation is non-empty, a two-column name/type table whose single data
row holds the backticked name and backticked type (empty string when the
type is absent), and a bulleted "Parameters:" list with one line per
parameter iff the entry's parameter list is non-empty
(see `rowMarkdownSpec`). -/
theorem toMarkdown_row_structure (entries : List DocEntry) :
    toMarkdown entries = joinWith "\n" (entries.map rowMarkdownSpec) :=
  toMarkdown_spec entries

/-- C10: whenever no entry of the input carries a `doc_type` — in particular
on every output of `generateDocumentation`, whose entries always have
`doc_type` absent — `documentationToMarkdown` returns the empty string. -/
theorem renderer_empty_without_doc_type :
    (∀ entries : List DocEntry, (∀ e ∈ entries, e.doc_type = none) →
      documentationToMarkdown entries = "") ∧
    (∀ (files : List SourceFile) (res : List DocEntry),
      generateDocumentation files = Except.ok res → ∀ e ∈ res, e.doc_type = none) :=
  ⟨doc_type_none_renders_empty, generateDocumentation_ok_doc_type⟩

/-- C10 witness: the extracted `add` entry carries no `doc_type`, and a
sequence of such entries renders to the empty string. -/
theorem renderer_empty_without_doc_type_witness :
    documentationToMarkdown [addExtracted] = "" ∧ addExtracted.doc_type = none :=
  ⟨renderer_empty_without_doc_type.1 [addExtracted]
    (fun e he => by
      cases he with
      | head => rfl
      | tail _ hm => cases hm),
    renderer_empty_without_doc_type.2 [addFile] [addExtracted]
      generateDocumentation_addFile addExtracted (List.mem_singleton.mpr rfl)⟩

theorem except_bind_pure_id (m : Except String (List DocEntry)) :
    Except.bind m (fun rs => Except.ok rs) = m := by
  cases m <;> rfl

theorem visitList_skip_leading (pre : List Node) (l : List Node)
    (hpre : ∀ n ∈ pre, isNodeExportedOrPublic n = false) :
    visitList (pre ++ l) = visitList l := by
  induction pre with
  | nil => rfl
  | cons p rest ih =>
    rw [List.cons_append, visitList_cons,
      visit_not_exported p (hpre p (List.mem_cons_self p rest))]
    rw [ih (fun n hn => hpre n (List.mem_cons_of_mem p hn))]
    simp only [except_bind_ok, List.nil_append]
    exact except_bind_pure_id _

/-- C3 helper: the mapped visitAndStamp over all-ineligible children. -/
theorem generateForFile_all_not_exported (sf : SourceFile)
    (h : ∀ n ∈ sf.children, isNodeExportedOrPublic n = false) :
    generateForFile sf = Except.ok [] := by
  unfold generateForFile
  have hmap : ∀ (ch : List Node), (∀ n ∈ ch, isNodeExportedOrPublic n = false) →
      ch.mapM (visitAndStamp sf.fileName) = Except.ok (ch.map (fun _ => [])) := by
    intro ch
    induction ch with
    | nil => intro _ ; rw [List.mapM_nil] ; rfl
    | cons n rest ih =>
      intro hch
      rw [List.mapM_cons]
      rw [show visitAndStamp sf.fileName n =
        (do
          let entries ← visit n
          Except.ok (entries.map (fun entry => entry.setFileName (some sf.fileName))))
        from rfl]
      rw [visit_not_exported n (hch n (List.mem_cons_self n rest))]
      rw [ih (fun m hm => hch m (List.mem_cons_of_mem n hm))]
      rfl
  rw [hmap sf.children h]
  simp only [except_bind_ok_m, Except.ok.injEq]
  induction sf.children with
  | nil => rfl
  | cons n rest ih => simp

theorem generateDocumentation_all_not_exported (files : List SourceFile)
    (h : ∀ f ∈ files, ∀ n ∈ f.children, isNodeExportedOrPublic n = false) :
    generateDocumentation files = Except.ok [] := by
  unfold generateDocumentation
  simp only []
  have hmap : ∀ (fs : List SourceFile),
      (∀ f ∈ fs, ∀ n ∈ f.children, isNodeExportedOrPublic n = false) →
      fs.mapM generateForFile = Except.ok (fs.map (fun _ => [])) := by
    intro fs
    induction fs with
    | nil => intro _ ; rw [List.mapM_nil] ; rfl
    | cons f rest ih =>
      intro hfs
      rw [List.mapM_cons]
      rw [generateForFile_all_not_exported f (hfs f (List.mem_cons_self f rest))]
      rw [ih (fun g hg => hfs g (List.mem_cons_of_mem f hg))]
      rfl
  have hsub : ∀ f ∈ files.filter (fun f => !f.isDeclarationFile),
      ∀ n ∈ f.children, isNodeExportedOrPublic n = false := by
    intro f hf
    exact h f (List.mem_of_mem_filter hf)
  rw [hmap _ hsub]
  simp only [except_bind_ok_m, Except.ok.injEq]
  induction files.filter (fun f => !f.isDeclarationFile) with
  | nil => rfl
  | cons f rest ih => simp

/-- C3: a node whose combined modifier flags contain neither Export nor
Public contributes nothing — `visit` returns the empty sequence on it — and a
program all of whose top-level declarations are neither exported nor public
extracts to the empty sequence. -/
theorem extraction_requires_export_or_public :
    (∀ n : Node, isNodeExportedOrPublic n = false → visit n = Except.ok []) ∧
    (∀ files : List SourceFile,
      (∀ f ∈ files, ∀ n ∈ f.children, isNodeExportedOrPublic n = false) →
      generateDocumentation files = Except.ok []) :=
  ⟨visit_not_exported, generateDocumentation_all_not_exported⟩

/-- C3 witness: a non-exported function declaration yields nothing, and a
file holding only that declaration extracts to the empty sequence. -/
theorem extraction_requires_export_or_public_witness :
    visit (.functionDecl 0 (some addSymbol) []) = Except.ok [] ∧
    generateDocumentation [⟨"main.ts", false, [.functionDecl 0 (some addSymbol) []]⟩] =
      Except.ok [] :=
  ⟨extraction_requires_export_or_public.1 (.functionDecl 0 (some addSymbol) []) rfl,
    extraction_requires_export_or_public.2
      [⟨"main.ts", false, [.functionDecl 0 (some addSymbol) []]⟩]
      (by
        intro f hf n hn
        cases hf with
        | head =>
          cases hn with
          | head => rfl
          | tail _ hm => cases hm
        | tail _ hm => cases hm)⟩

/-- C4: an exported named class whose symbol resolves, and whose body holds
one exported method with a resolving symbol among otherwise ineligible
children, yields exactly one record: the serialized class, named after the
class symbol, whose `methods` (initialized empty and filled from the
children before the class record is appended) hold exactly the one serialized
method, named after the method symbol. -/
theorem visit_class_collects_single_method
    (cf mf : Nat) (csym msym : Symbol) (base mdet : DocEntry) (pre post : List Node)
    (hclass : isNodeExportedOrPublic
      (.classDecl cf (some (some csym)) (pre ++ .methodDecl mf (some msym) [] :: post)) = true)
    (hmethod : isNodeExportedOrPublic (.methodDecl mf (some msym) []) = true)
    (hser : serializeClass csym = Except.ok base)
    (hms : serializeSymbol msym = Except.ok mdet)
    (hpre : ∀ n ∈ pre, isNodeExportedOrPublic n = false)
    (hpost : ∀ n ∈ post, isNodeExportedOrPublic n = false) :
    visit (.classDecl cf (some (some csym)) (pre ++ .methodDecl mf (some msym) [] :: post)) =
      Except.ok [base.setMethods (some [mdet])] ∧
    (base.setMethods (some [mdet])).name = csym.name ∧
    (base.setMethods (some [mdet])).methods = some [mdet] ∧
    mdet.name = msym.name := by
  refine ⟨?_, ?_, setMethods_methods base (some [mdet]), (serializeSymbol_ok_fields msym mdet hms).1⟩
  · rw [visit_classDecl_some cf csym _ hclass, hser]
    simp only [except_bind_ok]
    rw [visitList_skip_leading pre _ hpre, visitList_cons,
      visit_methodDecl mf (some msym) [] hmethod]
    rw [show addDocEntry (some msym) =
      Except.bind (serializeSymbol msym) (fun d => Except.ok [d]) from rfl, hms]
    rw [visitList_all_not_exported post hpost]
    rfl
  · rw [setMethods_name]
    obtain ⟨details, ctors, hds, hcs, hbase⟩ := serializeClass_ok_form csym base hser
    rw [hbase, setConstructors_name]
    exact (serializeSymbol_ok_fields csym details hds).1

/-- C4 witness: a concrete exported class `C` with one exported method `m`. -/
theorem visit_class_collects_single_method_witness :
    visit (.classDecl 1 (some (some ⟨"C", "", some (), "typeof C", [], []⟩))
        [.methodDecl 1 (some ⟨"m", "", some (), "() => void", [], []⟩) []]) =
      Except.ok
        [⟨"C", none, some "", some "typeof C", some [], none,
          some [⟨"m", none, some "", some "() => void", none, none, none, none, some [], none⟩],
          none, some [], none⟩] :=
  (visit_class_collects_single_method 1 1
    ⟨"C", "", some (), "typeof C", [], []⟩
    ⟨"m", "", some (), "() => void", [], []⟩
    ⟨"C", none, some "", some "typeof C", some [], none, none, none, some [], none⟩
    ⟨"m", none, some "", some "() => void", none, none, none, none, some [], none⟩
    [] []
    rfl rfl rfl rfl
    (fun n hn => by cases hn) (fun n hn => by cases hn)).1

/-- C5: an exported namespace wrapping two exported functions contributes the
two serialized functions, in source order, and no record for the namespace
itself; file order is preserved, and nothing is deduplicated — the two
function symbols may carry the same name and both entries are kept. -/
theorem visit_namespace_transparent
    (nf f1 f2 : Nat) (s1 s2 : Symbol) (d1 d2 : DocEntry)
    (hns : isNodeExportedOrPublic
      (.moduleDecl nf [.functionDecl f1 (some s1) [], .functionDecl f2 (some s2) []]) = true)
    (h1 : isNodeExportedOrPublic (.functionDecl f1 (some s1) []) = true)
    (h2 : isNodeExportedOrPublic (.functionDecl f2 (some s2) []) = true)
    (hs1 : serializeSymbol s1 = Except.ok d1)
    (hs2 : serializeSymbol s2 = Except.ok d2) :
    visit (.moduleDecl nf [.functionDecl f1 (some s1) [], .functionDecl f2 (some s2) []]) =
      Except.ok [d1, d2] ∧
    (∀ (fA fB : SourceFile) (eA eB : List DocEntry),
      fA.isDeclarationFile = false → fB.isDeclarationFile = false →
      generateForFile fA = Except.ok eA → generateForFile fB = Except.ok eB →
      generateDocumentation [fA, fB] = Except.ok (eA ++ eB)) := by
  constructor
  · rw [visit_moduleDecl nf _ hns, visitList_cons, visitList_cons, visitList_nil]
    rw [visit_functionDecl f1 (some s1) [] h1, visit_functionDecl f2 (some s2) [] h2]
    rw [show addDocEntry (some s1) =
      Except.bind (serializeSymbol s1) (fun d => Except.ok [d]) from rfl, hs1]
    rw [show addDocEntry (some s2) =
      Except.bind (serializeSymbol s2) (fun d => Except.ok [d]) from rfl, hs2]
    rfl
  · intro fA fB eA eB hdA hdB hgA hgB
    unfold generateDocumentation
    simp only []
    rw [show ([fA, fB].filter (fun f => !f.isDeclarationFile)) = [fA, fB] by
      simp [List.filter, hdA, hdB]]
    rw [List.mapM_cons, List.mapM_cons, List.mapM_nil, hgA, hgB]
    simp

/-- C5 witness: a namespace with two exported functions that share one name
and one oracle; both entries appear, in order. -/
theorem visit_namespace_transparent_witness :
    visit (.moduleDecl 1 [.functionDecl 1 (some addSymbol) [],
        .functionDecl 1 (some addSymbol) []]) =
      Except.ok
        [⟨"add", none, some "", some "(a: number, b: number) => number",
          none, none, none, none, some [], none⟩,
         ⟨"add", none, some "", some "(a: number, b: number) => number",
          none, none, none, none, some [], none⟩] :=
  (visit_namespace_transparent 1 1 1 addSymbol addSymbol
    ⟨"add", none, some "", some "(a: number, b: number) => number",
      none, none, none, none, some [], none⟩
    ⟨"add", none, some "", some "(a: number, b: number) => number",
      none, none, none, none, some [], none⟩
    rfl rfl rfl rfl rfl).1

theorem findDescendantArrowFunction_arrow (f : Nat) (p : Option Symbol) (c : List Node) :
    findDescendantArrowFunction (.arrowFunction f p c) = some (.arrowFunction f p c) := by
  rw [findDescendantArrowFunction.eq_def]
  simp [isArrowFunction]

theorem findDescendantArrowFunction_other_arrow_head (f g : Nat) (p : Option Symbol)
    (ac rest : List Node) :
    findDescendantArrowFunction (.other f (.arrowFunction g p ac :: rest)) =
      some (.arrowFunction g p ac) := by
  rw [findDescendantArrowFunction.eq_def]
  simp only [isArrowFunction, Bool.false_eq_true, if_false, Node.children]
  rw [findArrowInChildren.eq_def]
  simp [findDescendantArrowFunction_arrow]

/-- C6: in the class, method, function and arrow-function branches of
`visit`, a name whose symbol resolution comes back empty produces no record
and raises no error, and the surrounding traversal proceeds unaffected. -/
theorem visit_silent_skip :
    (∀ (f : Nat) (c : List Node),
      isNodeExportedOrPublic (.classDecl f (some none) c) = true →
      visit (.classDecl f (some none) c) = Except.ok []) ∧
    (∀ (f : Nat) (c : List Node),
      isNodeExportedOrPublic (.methodDecl f none c) = true →
      visit (.methodDecl f none c) = Except.ok []) ∧
    (∀ (f : Nat) (c : List Node),
      isNodeExportedOrPublic (.functionDecl f none c) = true →
      visit (.functionDecl f none c) = Except.ok []) ∧
    (∀ (f g : Nat) (ac rest : List Node),
      isNodeExportedOrPublic (.other f (.arrowFunction g none ac :: rest)) = true →
      visit (.other f (.arrowFunction g none ac :: rest)) = Except.ok []) ∧
    (∀ (n : Node) (rest : List Node), visit n = Except.ok [] →
      visitList (n :: rest) = visitList rest) := by
  refine ⟨visit_classDecl_nosym, ?_, ?_, ?_, ?_⟩
  · intro f c h
    rw [visit_methodDecl f none c h]
    rfl
  · intro f c h
    rw [visit_functionDecl f none c h]
    rfl
  · intro f g ac rest h
    rw [visit_other f _ h]
    unfold arrowFunctionBranch
    rw [findDescendantArrowFunction_other_arrow_head]
    rfl
  · intro n rest h
    rw [visitList_cons, h]
    simp only [except_bind_ok, List.nil_append]
    exact except_bind_pure_id _

/-- C6 witness: concrete unresolved class, method, function and arrow nodes
are skipped silently, and an unresolved sibling leaves the rest of a
namespace traversal unchanged. -/
theorem visit_silent_skip_witness :
    visit (.classDecl 1 (some none) []) = Except.ok [] ∧
    visit (.methodDecl 1 none []) = Except.ok [] ∧
    visit (.functionDecl 1 none []) = Except.ok [] ∧
    visit (.other 1 [.arrowFunction 0 none []]) = Except.ok [] ∧
    visitList [.methodDecl 1 none [], addNode] = visitList [addNode] :=
  ⟨visit_silent_skip.1 1 [] rfl,
    visit_silent_skip.2.1 1 [] rfl,
    visit_silent_skip.2.2.1 1 [] rfl,
    visit_silent_skip.2.2.2.1 1 0 [] [] rfl,
    visit_silent_skip.2.2.2.2 (.methodDecl 1 none []) [addNode]
      (visit_silent_skip.2.1 1 [] rfl)⟩

/-- C7: a symbol with a declaring location serializes to a record normally; a
symbol without one makes `serializeSymbol` (and hence `serializeClass`) fault
on the unchecked `valueDeclaration!` dereference, and since no caller
catches, a faulting node anywhere in a visited file aborts the entire
extraction call. -/
theorem serialize_fault_propagation :
    (∀ (s : Symbol) (u : Unit), s.valueDeclaration = some u →
      ∃ d, serializeSymbol s = Except.ok d) ∧
    (∀ s : Symbol, s.valueDeclaration = none →
      serializeSymbol s = Except.error noValueDeclarationError ∧
      serializeClass s = Except.error noValueDeclarationError) ∧
    (∀ (files : List SourceFile) (sf : SourceFile) (n : Node) (msg : String),
      sf ∈ files → sf.isDeclarationFile = false → n ∈ sf.children →
      visit n = Except.error msg →
      ∃ m, generateDocumentation files = Except.error m) := by
  refine ⟨?_, ?_, ?_⟩
  · intro s u h
    exact ⟨_, serializeSymbol_of_valueDeclaration s u h⟩
  · intro s h
    exact ⟨serializeSymbol_of_no_valueDeclaration s h,
      serializeClass_of_no_valueDeclaration s h⟩
  · intro files sf n msg hsf hdecl hn hv
    cases hg : generateDocumentation files with
    | error m => exact ⟨m, rfl⟩
    | ok res =>
      exfalso
      unfold generateDocumentation at hg
      simp only [] at hg
      cases hm : (files.filter (fun f => !f.isDeclarationFile)).mapM generateForFile with
      | error m => rw [hm] at hg ; simp at hg
      | ok results =>
        have hsf2 : sf ∈ files.filter (fun f => !f.isDeclarationFile) :=
          List.mem_filter.mpr ⟨hsf, by simp [hdecl]⟩
        obtain ⟨chunk, hgen⟩ := mapM_ok_forall _ _ _ hm sf hsf2
        unfold generateForFile at hgen
        cases hmc : sf.children.mapM (visitAndStamp sf.fileName) with
        | error m => rw [hmc] at hgen ; simp at hgen
        | ok perChild =>
          obtain ⟨y, hy⟩ := mapM_ok_forall _ _ _ hmc n hn
          unfold visitAndStamp at hy
          rw [hv] at hy
          simp at hy

/-- C7 witness: the `add` symbol serializes; a declaration-less symbol
faults; and a file containing an exported function bound to that symbol makes
the whole extraction return an error. -/
theorem serialize_fault_propagation_witness :
    (∃ d, serializeSymbol addSymbol = Except.ok d) ∧
    serializeSymbol noDeclSymbol = Except.error noValueDeclarationError ∧
    (∃ m, generateDocumentation
      [⟨"broken.ts", false, [.functionDecl 1 (some noDeclSymbol) []]⟩] =
        Except.error m) :=
  ⟨serialize_fault_propagation.1 addSymbol () rfl,
    (serialize_fault_propagation.2.1 noDeclSymbol rfl).1,
    serialize_fault_propagation.2.2
      [⟨"broken.ts", false, [.functionDecl 1 (some noDeclSymbol) []]⟩]
      ⟨"broken.ts", false, [.functionDecl 1 (some noDeclSymbol) []]⟩
      (.functionDecl 1 (some noDeclSymbol) []) noValueDeclarationError
      (List.mem_singleton.mpr rfl) rfl (List.mem_singleton.mpr rfl)
      (by
        rw [visit_functionDecl 1 (some noDeclSymbol) [] rfl]
        rfl)⟩

/-- C8 counterexample: the two unguarded cases the claim equates behave
differently.  For an exported variable statement whose single declaration
carries no bound symbol, `visit` silently returns no entries — `addDocEntry`
does guard against an absent symbol — whereas an empty declaration list
faults (reading `.symbol` off `declarations[0]`, which is `undefined`). -/
theorem variableStatement_guard_counterexample :
    visit (.variableStatement 1 [⟨none⟩] []) = Except.ok [] ∧
    visit (.variableStatement 1 [] []) =
      Except.error "TypeError: cannot read properties of undefined" := by
  constructor
  · rw [visit_variableStatement_cons 1 ⟨none⟩ [] [] rfl]
    rfl
  · exact visit_variableStatement_nil 1 [] rfl

/-- C8 (amended): for every exported variable statement, `visit` takes the
first declaration of its declaration list and hands its bound symbol to
`addDocEntry`; an absent symbol is therefore silently skipped by
`addDocEntry`'s guard, while only the empty declaration list is unguarded and
faults. -/
theorem visit_variableStatement_behavior :
    (∀ (f : Nat) (d : VarDecl) (rest : List VarDecl) (c : List Node),
      isNodeExportedOrPublic (.variableStatement f (d :: rest) c) = true →
      visit (.variableStatement f (d :: rest) c) = addDocEntry d.symbol) ∧
    (∀ (f : Nat) (d : VarDecl) (rest : List VarDecl) (c : List Node),
      isNodeExportedOrPublic (.variableStatement f (d :: rest) c) = true →
      d.symbol = none →
      visit (.variableStatement f (d :: rest) c) = Except.ok []) ∧
    (∀ (f : Nat) (c : List Node),
      isNodeExportedOrPublic (.variableStatement f [] c) = true →
      visit (.variableStatement f [] c) =
        Except.error "TypeError: cannot read properties of undefined") := by
  refine ⟨visit_variableStatement_cons, ?_, visit_variableStatement_nil⟩
  intro f d rest c h hnone
  rw [visit_variableStatement_cons f d rest c h, hnone]
  rfl

/-- C8 witness: concrete exported variable statements with a resolving
symbol, an absent symbol, and an empty declaration list. -/
theorem visit_variableStatement_behavior_witness :
    visit (.variableStatement 1 [⟨some addSymbol⟩] []) = addDocEntry (some addSymbol) ∧
    visit (.variableStatement 1 [⟨none⟩, ⟨some addSymbol⟩] []) = Except.ok [] ∧
    visit (.variableStatement 4 [] []) =
      Except.error "TypeError: cannot read properties of undefined" :=
  ⟨visit_variableStatement_behavior.1 1 ⟨some addSymbol⟩ [] [] rfl,
    visit_variableStatement_behavior.2.1 1 ⟨none⟩ [⟨some addSymbol⟩] [] rfl rfl,
    visit_variableStatement_behavior.2.2 4 [] rfl⟩

end Tsdoc
